import Mathlib

/-!
Verification of the audio ingestion and normalization pipeline of
rust-node-stt.  The repository has two binaries:

* `src/src/main.rs`: repairs `audio.wav` in place with ffmpeg
  (`fix_and_open_wav_inplace`), then opens it with hound, normalizes the
  samples into a mono 32-bit-float buffer and hands it to whisper.
* `ruststt/src/main.rs`: opens `fixed_audio.wav` directly and performs the
  same normalization with explicit loops.

The embedding below models:
* the sample-normalization blocks of both binaries as pure functions over
  rationals (`ℚ` stands for the exact value of an `f32`; every operation
  performed by the code — dividing an `i16` by the power of two `32768.0`
  and averaging two such quotients — is exact in IEEE single precision at
  these magnitudes, so the rational model is faithful);
* `fix_and_open_wav_inplace` as a state-passing function over an explicit
  file-system map together with an environment fixing the behaviour of the
  external world (ffmpeg, `fs::rename`, the hound parser), producing a
  trace of the external effects in program order.
-/

/-- Format descriptor exposed by hound's `WavReader::spec()`:
sample rate in Hz, channel count, bits per sample. -/
structure WavSpec where
  sample_rate : Nat
  channels : Nat
  bits_per_sample : Nat
deriving DecidableEq, Repr

/-- The raw interleaved sample sequence of one WAV file, typed by bit depth
exactly as the Rust code reads it: `reader.samples::<i16>()` for 16-bit
files and `reader.samples::<f32>()` for 32-bit-float files. -/
inductive RawData where
  | int16 (samples : List ℤ)
  | float32 (samples : List ℚ)
deriving DecidableEq, Repr

/-- Rust's `slice::chunks_exact(2)`: the list of consecutive disjoint pairs,
with a trailing unpaired element dropped. -/
def chunksExact2 {α : Type} : List α → List (α × α)
  | a :: b :: rest => (a, b) :: chunksExact2 rest
  | _ => []

/-- The normalization block of `src/src/main.rs` (lines 53-77): dispatch on
`spec.bits_per_sample`, then on `spec.channels == 2`; stereo pairs are
averaged via `chunks_exact(2).map(...)`, mono is mapped directly.  A bit
depth other than 16 or 32 yields the `Unsupported bit depth` error.  The
`sample format mismatch` branches model the per-sample error hound returns
when `samples::<T>()` is called with the wrong `T` for the file. -/
def normalizeAudioA (spec : WavSpec) (data : RawData) : Except String (List ℚ) :=
  if spec.bits_per_sample = 16 then
    match data with
    | .int16 samples =>
      if spec.channels = 2 then
        .ok ((chunksExact2 samples).map (fun (c : ℤ × ℤ) =>
          ((c.1 : ℚ) / 32768 + (c.2 : ℚ) / 32768) / 2))
      else
        .ok (samples.map (fun (s : ℤ) => (s : ℚ) / 32768))
    | .float32 _ => .error "sample format mismatch"
  else if spec.bits_per_sample = 32 then
    match data with
    | .float32 samples =>
      if spec.channels = 2 then
        .ok ((chunksExact2 samples).map (fun (c : ℚ × ℚ) => (c.1 + c.2) / 2))
      else
        .ok samples
    | .int16 _ => .error "sample format mismatch"
  else
    .error ("Unsupported bit depth: " ++ toString spec.bits_per_sample)

/-- The stereo 16-bit loop of `ruststt/src/main.rs`: iterate over
`chunks_exact(2)`, pushing `(left/32768 + right/32768)/2` onto `mono`. -/
def stereoLoop16 : List ℤ → List ℚ → List ℚ
  | l :: r :: rest, acc =>
      stereoLoop16 rest (acc ++ [((l : ℚ) / 32768 + (r : ℚ) / 32768) / 2])
  | _, acc => acc

/-- The stereo 32-bit loop of `ruststt/src/main.rs`: iterate over
`chunks_exact(2)`, pushing `(chunk[0] + chunk[1])/2` onto `mono`. -/
def stereoLoop32 : List ℚ → List ℚ → List ℚ
  | l :: r :: rest, acc => stereoLoop32 rest (acc ++ [(l + r) / 2])
  | _, acc => acc

/-- The normalization block of `ruststt/src/main.rs` (lines 17-57): same
dispatch as `normalizeAudioA`, but the stereo paths build `mono` with an
explicit `for` loop and `Vec::push` instead of `map`/`collect`. -/
def normalizeAudioB (spec : WavSpec) (data : RawData) : Except String (List ℚ) :=
  if spec.bits_per_sample = 16 then
    match data with
    | .int16 samples =>
      if spec.channels = 2 then
        .ok (stereoLoop16 samples [])
      else
        .ok (samples.map (fun (s : ℤ) => (s : ℚ) / 32768))
    | .float32 _ => .error "sample format mismatch"
  else if spec.bits_per_sample = 32 then
    match data with
    | .float32 samples =>
      if spec.channels = 2 then
        .ok (stereoLoop32 samples [])
      else
        .ok samples
    | .int16 _ => .error "sample format mismatch"
  else
    .error ("Unsupported bit depth: " ++ toString spec.bits_per_sample)

/-- The sample-rate check both binaries run before normalizing
(`if spec.sample_rate != 16000 { eprintln!("Warning: ...") }`): it only
emits a warning line on stderr and never aborts. -/
def sampleRateWarnings (spec : WavSpec) : List String :=
  if spec.sample_rate ≠ 16000 then
    ["Warning: Whisper works best with 16kHz audio. Current: " ++
      toString spec.sample_rate ++ "Hz"]
  else
    []

/-- The portion of `main` from the sample-rate check through normalization:
the emitted warnings paired with the normalization result.  The
normalization itself never consults `sample_rate`. -/
def mainNormalize (spec : WavSpec) (data : RawData) :
    List String × Except String (List ℚ) :=
  (sampleRateWarnings spec, normalizeAudioA spec data)

/-- A 16-bit raw sample sequence is well formed when every sample is a
genuine `i16` value. -/
def wellFormed16 (samples : List ℤ) : Prop :=
  ∀ s ∈ samples, -32768 ≤ s ∧ s ≤ 32767

/-- A 32-bit-float raw sample sequence is well formed when every sample
already lies in the unit range. -/
def wellFormed32 (samples : List ℚ) : Prop :=
  ∀ s ∈ samples, -1 ≤ s ∧ s ≤ 1

/-- Helper for `withExtension`: given the reversed character list of a file
name, drop the final extension (the characters after the last dot, and the
dot itself); a name with no dot is returned whole. -/
def stemRev (rev : List Char) : List Char :=
  match rev.dropWhile (fun c => c ≠ '.') with
  | [] => rev
  | _ :: rest => rest

/-- Rust's `Path::with_extension` for a plain file name: replace the
characters after the last dot (or append if there is none) with `ext`.
The code builds the temporary path as
`input_path.with_extension("repaired.tmp.wav")`. -/
def withExtension (p ext : String) : String :=
  String.mk ((stemRev p.data.reverse).reverse ++ ('.' :: ext.data))

/-- The externally visible actions `fix_and_open_wav_inplace` can take, in
program order: launch ffmpeg writing `dst` from `src`, delete a file,
rename a file onto another, open a file with hound. -/
inductive Effect where
  | runFfmpeg (src dst : String)
  | removeFile (p : String)
  | renameFile (src dst : String)
  | openWav (p : String)
deriving DecidableEq, Repr

/-- A file system: each path maps to the byte contents of the file there,
or `none` when no file exists at that path. -/
def FS : Type := String → Option (List Nat)

/-- Write `bytes` at `p` (creating or overwriting, like ffmpeg's `-y`). -/
def fsWrite (fs : FS) (p : String) (bytes : List Nat) : FS :=
  fun q => if q = p then some bytes else fs q

/-- Remove the file at `p` (like `fs::remove_file`, ignoring whether one
was there, as the code discards the `Result`). -/
def fsRemove (fs : FS) (p : String) : FS :=
  fun q => if q = p then none else fs q

/-- Atomic `fs::rename src dst`: `dst` now holds what `src` held and `src`
is gone. -/
def fsRename (fs : FS) (src dst : String) : FS :=
  fun q => if q = dst then fs src else if q = src then none else fs q

/-- Behaviour of the world outside `fix_and_open_wav_inplace`:
* `fs0`: the file system when the function is entered;
* `ffmpegSpawns`: whether the ffmpeg subprocess can be launched at all
  (`Command::output()` errors when it cannot);
* `ffmpegResult`: what a launched ffmpeg does, as a function of the source
  file's contents — `.ok out` means exit status 0 after writing `out` to
  the destination, `.error stderr` means a non-zero exit with that stderr;
* `renameOk`: whether `fs::rename` succeeds;
* `parseWav`: hound's `WavReader::open` as a function of file contents. -/
structure Env where
  fs0 : FS
  ffmpegSpawns : Bool
  ffmpegResult : Option (List Nat) → Except String (List Nat)
  renameOk : Bool
  parseWav : List Nat → Except String (WavSpec × RawData)

/-- Outcome of one call to `fix_and_open_wav_inplace`: the final file
system, the trace of external effects in program order, and the returned
`Result`. -/
structure FixResult where
  fs : FS
  trace : List Effect
  result : Except String (WavSpec × RawData)

/-- `fix_and_open_wav_inplace` of `src/src/main.rs` (lines 9-39), step by
step.  It never attempts to open `path` first: it always launches
`ffmpeg -i path -c:a copy -y temp` where
`temp = path.with_extension("repaired.tmp.wav")`.  On non-zero exit it
removes `temp` and returns an error; otherwise it renames `temp` onto
`path` (propagating a rename error with `?` and no cleanup) and only then
opens the renamed file with hound. -/
def fixAndOpenWavInplace (env : Env) (path : String) : FixResult :=
  let temp := withExtension path "repaired.tmp.wav"
  if env.ffmpegSpawns = false then
    { fs := env.fs0
      trace := [.runFfmpeg path temp]
      result := .error "failed to launch ffmpeg" }
  else
    match env.ffmpegResult (env.fs0 path) with
    | .error stderr =>
        { fs := fsRemove env.fs0 temp
          trace := [.runFfmpeg path temp, .removeFile temp]
          result := .error
            ("ffmpeg failed to repair the file. Is ffmpeg installed and in your PATH?\nffmpeg stderr: "
              ++ stderr) }
    | .ok out =>
        let fs1 := fsWrite env.fs0 temp out
        if env.renameOk = false then
          { fs := fs1
            trace := [.runFfmpeg path temp, .renameFile temp path]
            result := .error "rename failed" }
        else
          let fs2 := fsRename fs1 temp path
          { fs := fs2
            trace := [.runFfmpeg path temp, .renameFile temp path, .openWav path]
            result :=
              match fs2 path with
              | none => .error "Failed to open the now-repaired file: no such file"
              | some bytes =>
                match env.parseWav bytes with
                | .ok r => .ok r
                | .error e =>
                    .error ("Failed to open the now-repaired file: " ++ e) }

/-- An environment in which `audio.wav` exists and would parse fine as it
stands: hound accepts any contents, and ffmpeg remuxes `[1, 2, 3]` into
the different byte string `[4, 5, 6]`. -/
def envReadable : Env where
  fs0 := fun p => if p = "audio.wav" then some [1, 2, 3] else none
  ffmpegSpawns := true
  ffmpegResult := fun _ => .ok [4, 5, 6]
  renameOk := true
  parseWav := fun _ => .ok (⟨16000, 1, 16⟩, .int16 [0])

/-- An environment in which ffmpeg runs but exits non-zero. -/
def envToolFails : Env where
  fs0 := fun p => if p = "audio.wav" then some [9, 9] else none
  ffmpegSpawns := true
  ffmpegResult := fun _ => .error "boom"
  renameOk := true
  parseWav := fun _ => .error "unreadable"

/-- An environment in which ffmpeg succeeds but the rename fails. -/
def envRenameFails : Env where
  fs0 := fun p => if p = "audio.wav" then some [7] else none
  ffmpegSpawns := true
  ffmpegResult := fun _ => .ok [8]
  renameOk := false
  parseWav := fun _ => .error "unreadable"

/-! ## Helper lemmas -/

theorem chunksExact2_length {α : Type} : ∀ xs : List α,
    (chunksExact2 xs).length = xs.length / 2
  | [] => by simp [chunksExact2]
  | [a] => by simp [chunksExact2]
  | a :: b :: rest => by
      simp only [chunksExact2, List.length_cons]
      rw [chunksExact2_length rest]
      omega

theorem chunksExact2_mem {α : Type} : ∀ (xs : List α) (p : α × α),
    p ∈ chunksExact2 xs → p.1 ∈ xs ∧ p.2 ∈ xs
  | [], p => by simp [chunksExact2]
  | [a], p => by simp [chunksExact2]
  | a :: b :: rest, p => by
      intro hp
      simp only [chunksExact2, List.mem_cons] at hp
      rcases hp with h | h
      · subst h; simp
      · have := chunksExact2_mem rest p h
        constructor
        · exact List.mem_cons_of_mem _ (List.mem_cons_of_mem _ this.1)
        · exact List.mem_cons_of_mem _ (List.mem_cons_of_mem _ this.2)

theorem stereoLoop16_eq : ∀ (xs : List ℤ) (acc : List ℚ),
    stereoLoop16 xs acc =
      acc ++ (chunksExact2 xs).map
        (fun (c : ℤ × ℤ) => ((c.1 : ℚ) / 32768 + (c.2 : ℚ) / 32768) / 2)
  | [], acc => by simp [stereoLoop16, chunksExact2]
  | [a], acc => by simp [stereoLoop16, chunksExact2]
  | a :: b :: rest, acc => by
      rw [stereoLoop16, chunksExact2]
      rw [stereoLoop16_eq rest]
      simp

theorem stereoLoop32_eq : ∀ (xs : List ℚ) (acc : List ℚ),
    stereoLoop32 xs acc = acc ++ (chunksExact2 xs).map (fun (c : ℚ × ℚ) => (c.1 + c.2) / 2)
  | [], acc => by simp [stereoLoop32, chunksExact2]
  | [a], acc => by simp [stereoLoop32, chunksExact2]
  | a :: b :: rest, acc => by
      rw [stereoLoop32, chunksExact2]
      rw [stereoLoop32_eq rest]
      simp

theorem sample16_bounds {s : ℤ} (h1 : -32768 ≤ s) (h2 : s ≤ 32767) :
    -1 ≤ (s : ℚ) / 32768 ∧ (s : ℚ) / 32768 ≤ 32767 / 32768 := by
  have hc1 : (-32768 : ℚ) ≤ (s : ℚ) := by exact_mod_cast h1
  have hc2 : ((s : ℚ)) ≤ 32767 := by exact_mod_cast h2
  constructor
  · rw [le_div_iff₀ (by norm_num : (0 : ℚ) < 32768)]
    linarith
  · rw [div_le_div_iff₀ (by norm_num : (0 : ℚ) < 32768) (by norm_num : (0 : ℚ) < 32768)]
    linarith

theorem avg_bounds {x y lo hi : ℚ} (hx1 : lo ≤ x) (hx2 : x ≤ hi)
    (hy1 : lo ≤ y) (hy2 : y ≤ hi) :
    lo ≤ (x + y) / 2 ∧ (x + y) / 2 ≤ hi := by
  constructor <;> linarith

theorem normalizeA_mono16_red (sr : Nat) (s16 : List ℤ) :
    normalizeAudioA ⟨sr, 1, 16⟩ (.int16 s16) =
      .ok (s16.map (fun (s : ℤ) => (s : ℚ) / 32768)) := rfl

theorem normalizeA_stereo16_red (sr : Nat) (s16 : List ℤ) :
    normalizeAudioA ⟨sr, 2, 16⟩ (.int16 s16) =
      .ok ((chunksExact2 s16).map
        (fun (p : ℤ × ℤ) => ((p.1 : ℚ) / 32768 + (p.2 : ℚ) / 32768) / 2)) := rfl

theorem normalizeA_mono32_red (sr : Nat) (s32 : List ℚ) :
    normalizeAudioA ⟨sr, 1, 32⟩ (.float32 s32) = .ok s32 := rfl

theorem normalizeA_stereo32_red (sr : Nat) (s32 : List ℚ) :
    normalizeAudioA ⟨sr, 2, 32⟩ (.float32 s32) =
      .ok ((chunksExact2 s32).map (fun (p : ℚ × ℚ) => (p.1 + p.2) / 2)) := rfl

theorem normalizeA_ok_length (sr c : Nat) (hc : c = 1 ∨ c = 2)
    (s16 : List ℤ) (s32 : List ℚ) :
    (∃ out, normalizeAudioA ⟨sr, c, 16⟩ (.int16 s16) = .ok out ∧
        out.length = s16.length / c)
  ∧ (∃ out, normalizeAudioA ⟨sr, c, 32⟩ (.float32 s32) = .ok out ∧
        out.length = s32.length / c) := by
  rcases hc with h | h <;> subst h
  · exact ⟨⟨_, normalizeA_mono16_red sr s16, by rw [List.length_map, Nat.div_one]⟩,
      ⟨_, normalizeA_mono32_red sr s32, by rw [Nat.div_one]⟩⟩
  · exact ⟨⟨_, normalizeA_stereo16_red sr s16,
        by rw [List.length_map, chunksExact2_length]⟩,
      ⟨_, normalizeA_stereo32_red sr s32,
        by rw [List.length_map, chunksExact2_length]⟩⟩

theorem normalizeA16_bounds (sr c : Nat) (hc : c = 1 ∨ c = 2) (s16 : List ℤ)
    (h16 : wellFormed16 s16) :
    ∀ out, normalizeAudioA ⟨sr, c, 16⟩ (.int16 s16) = .ok out →
      ∀ q ∈ out, -1 ≤ q ∧ q ≤ 32767 / 32768 := by
  rcases hc with h | h <;> subst h <;> intro out hout q hq
  · rw [normalizeA_mono16_red] at hout
    injection hout with hout
    subst hout
    obtain ⟨s, hs, rfl⟩ := List.mem_map.mp hq
    exact sample16_bounds (h16 s hs).1 (h16 s hs).2
  · rw [normalizeA_stereo16_red] at hout
    injection hout with hout
    subst hout
    obtain ⟨p, hp, rfl⟩ := List.mem_map.mp hq
    have hmem := chunksExact2_mem s16 p hp
    have b1 := sample16_bounds (h16 p.1 hmem.1).1 (h16 p.1 hmem.1).2
    have b2 := sample16_bounds (h16 p.2 hmem.2).1 (h16 p.2 hmem.2).2
    exact avg_bounds b1.1 b1.2 b2.1 b2.2

theorem normalizeA32_bounds (sr c : Nat) (hc : c = 1 ∨ c = 2) (s32 : List ℚ)
    (h32 : wellFormed32 s32) :
    ∀ out, normalizeAudioA ⟨sr, c, 32⟩ (.float32 s32) = .ok out →
      ∀ q ∈ out, -1 ≤ q ∧ q ≤ 1 := by
  rcases hc with h | h <;> subst h <;> intro out hout q hq
  · rw [normalizeA_mono32_red] at hout
    injection hout with hout
    subst hout
    exact h32 q hq
  · rw [normalizeA_stereo32_red] at hout
    injection hout with hout
    subst hout
    obtain ⟨p, hp, rfl⟩ := List.mem_map.mp hq
    have hmem := chunksExact2_mem s32 p hp
    exact avg_bounds (h32 p.1 hmem.1).1 (h32 p.1 hmem.1).2
      (h32 p.2 hmem.2).1 (h32 p.2 hmem.2).2

/-! ## Claim theorems -/

/-- Claim C9: the two near-duplicate normalization blocks — the
`map`/`collect` one of `src/src/main.rs` and the explicit-loop one of
`ruststt/src/main.rs` — compute the same function: for every format
descriptor and raw sample sequence they produce identical normalized
buffers or fail with the same error. -/
theorem c9_duplicate_blocks_equal (spec : WavSpec) (data : RawData) :
    normalizeAudioA spec data = normalizeAudioB spec data := by
  unfold normalizeAudioA normalizeAudioB
  cases data with
  | int16 samples => simp [stereoLoop16_eq]
  | float32 samples => simp [stereoLoop32_eq]

/-- Claim C4: normalization computes exactly the dispatch table — 16-bit
mono divides each sample by 32768; 16-bit stereo averages the two
divided channels of each pair; 32-bit mono is the identity; 32-bit stereo
averages each pair; and on the concrete inputs, mono 16-bit
`[16384, -16384]` gives `[0.5, -0.5]` and stereo 32-bit
`(1.0, -1.0), (0.5, 0.5)` gives `[0.0, 0.5]`. -/
theorem c4_dispatch_table (sr : Nat) (s16 : List ℤ) (s32 : List ℚ) :
    normalizeAudioA ⟨sr, 1, 16⟩ (.int16 s16) =
      .ok (s16.map (fun (s : ℤ) => (s : ℚ) / 32768))
  ∧ normalizeAudioA ⟨sr, 2, 16⟩ (.int16 s16) =
      .ok ((chunksExact2 s16).map
        (fun (p : ℤ × ℤ) => ((p.1 : ℚ) / 32768 + (p.2 : ℚ) / 32768) / 2))
  ∧ normalizeAudioA ⟨sr, 1, 32⟩ (.float32 s32) = .ok s32
  ∧ normalizeAudioA ⟨sr, 2, 32⟩ (.float32 s32) =
      .ok ((chunksExact2 s32).map (fun (p : ℚ × ℚ) => (p.1 + p.2) / 2))
  ∧ normalizeAudioA ⟨16000, 1, 16⟩ (.int16 [16384, -16384]) =
      .ok [1 / 2, -(1 / 2)]
  ∧ normalizeAudioA ⟨16000, 2, 32⟩ (.float32 [1, -1, 1 / 2, 1 / 2]) =
      .ok [0, 1 / 2] := by
  refine ⟨rfl, rfl, rfl, rfl, ?_, ?_⟩
  · rw [normalizeA_mono16_red]
    norm_num
  · rw [normalizeA_stereo32_red]
    norm_num [chunksExact2]

/-- Claim C5: for every supported channel count `c ∈ {1, 2}` the
normalized buffer has length `⌊n / c⌋` where `n` is the raw sample
count; in particular 5 raw samples under stereo give a buffer of
length 2, the trailing unpaired sample being dropped. -/
theorem c5_output_length (sr c : Nat) (hc : c = 1 ∨ c = 2)
    (s16 : List ℤ) (s32 : List ℚ) :
    (∃ out, normalizeAudioA ⟨sr, c, 16⟩ (.int16 s16) = .ok out ∧
        out.length = s16.length / c)
  ∧ (∃ out, normalizeAudioA ⟨sr, c, 32⟩ (.float32 s32) = .ok out ∧
        out.length = s32.length / c)
  ∧ (∃ out, normalizeAudioA ⟨16000, 2, 16⟩ (.int16 [1, 2, 3, 4, 5]) = .ok out ∧
        out.length = 2) := by
  refine ⟨(normalizeA_ok_length sr c hc s16 s32).1,
    (normalizeA_ok_length sr c hc s16 s32).2,
    ⟨_, normalizeA_stereo16_red 16000 [1, 2, 3, 4, 5], ?_⟩⟩
  rw [List.length_map, chunksExact2_length]
  rfl

/-- Witness for C5 at channel count 2 on a 3-sample input: the buffer has
length `3 / 2 = 1`. -/
theorem c5_output_length_witness :
    ∃ out, normalizeAudioA ⟨44100, 2, 16⟩ (.int16 [1, 2, 3]) = .ok out ∧
      out.length = 1 :=
  (c5_output_length 44100 2 (Or.inr rfl) [1, 2, 3] []).1

/-- Counterexample to claim C2 as stated: a 3-channel 16-bit input does
not fail with an unsupported-format error — the code's
`if spec.channels == 2 { ... } else { mono }` sends it down the mono path
and produces a normalized buffer. -/
theorem c2_counterexample :
    normalizeAudioA ⟨16000, 3, 16⟩ (.int16 [0]) = .ok [0] := by
  rw [show normalizeAudioA ⟨16000, 3, 16⟩ (.int16 [0]) =
    .ok ([0].map (fun (s : ℤ) => (s : ℚ) / 32768)) from rfl]
  norm_num

/-- Claim C2 amended: the code only branches on `channels == 2`; every
channel count other than 2 (including 3 or more) takes the mono path and
yields a normalized buffer, never an unsupported-format error. -/
theorem c2_nonstereo_is_mono (sr c : Nat) (hc : c ≠ 2)
    (s16 : List ℤ) (s32 : List ℚ) :
    normalizeAudioA ⟨sr, c, 16⟩ (.int16 s16) =
      .ok (s16.map (fun (s : ℤ) => (s : ℚ) / 32768))
  ∧ normalizeAudioA ⟨sr, c, 32⟩ (.float32 s32) = .ok s32 := by
  unfold normalizeAudioA
  simp [hc]

/-- Witness for the amended C2 at channel count 3. -/
theorem c2_nonstereo_is_mono_witness :
    normalizeAudioA ⟨16000, 3, 16⟩ (.int16 [32767]) =
      .ok ([32767].map (fun (s : ℤ) => (s : ℚ) / 32768))
  ∧ normalizeAudioA ⟨16000, 3, 32⟩ (.float32 [1]) = .ok [1] :=
  c2_nonstereo_is_mono 16000 3 (by decide) [32767] [1]

/-- Claim C8: a sample rate different from 16000 Hz does not fail the
pipeline — the warning list is non-empty and a normalized buffer of the
correct length is still produced for every supported channel count. -/
theorem c8_rate_mismatch_warns_and_normalizes (sr c : Nat) (hsr : sr ≠ 16000)
    (hc : c = 1 ∨ c = 2) (s16 : List ℤ) (s32 : List ℚ) :
    (mainNormalize ⟨sr, c, 16⟩ (.int16 s16)).1 ≠ []
  ∧ (∃ out, (mainNormalize ⟨sr, c, 16⟩ (.int16 s16)).2 = .ok out ∧
      out.length = s16.length / c)
  ∧ (∃ out, (mainNormalize ⟨sr, c, 32⟩ (.float32 s32)).2 = .ok out ∧
      out.length = s32.length / c) := by
  refine ⟨?_, (normalizeA_ok_length sr c hc s16 s32).1,
    (normalizeA_ok_length sr c hc s16 s32).2⟩
  simp [mainNormalize, sampleRateWarnings, hsr]

/-- Witness for C8 at 44100 Hz stereo. -/
theorem c8_rate_mismatch_witness :
    (mainNormalize ⟨44100, 2, 16⟩ (.int16 [1, 2])).1 ≠ []
  ∧ (∃ out, (mainNormalize ⟨44100, 2, 16⟩ (.int16 [1, 2])).2 = .ok out ∧
      out.length = 1)
  ∧ (∃ out, (mainNormalize ⟨44100, 2, 32⟩ (.float32 [])).2 = .ok out ∧
      out.length = 0) :=
  c8_rate_mismatch_warns_and_normalizes 44100 2 (by decide) (Or.inr rfl) [1, 2] []

/-- Claim C7: for well-formed input — 16-bit samples that are genuine
`i16` values, or 32-bit-float samples already in `[-1, 1]` — every sample
of the normalized buffer lies in `[-1, 1]`, for every supported channel
count. -/
theorem c7_unit_range (sr c : Nat) (hc : c = 1 ∨ c = 2)
    (s16 : List ℤ) (s32 : List ℚ)
    (h16 : wellFormed16 s16) (h32 : wellFormed32 s32) :
    (∀ out, normalizeAudioA ⟨sr, c, 16⟩ (.int16 s16) = .ok out →
        ∀ q ∈ out, -1 ≤ q ∧ q ≤ 1)
  ∧ (∀ out, normalizeAudioA ⟨sr, c, 32⟩ (.float32 s32) = .ok out →
        ∀ q ∈ out, -1 ≤ q ∧ q ≤ 1) := by
  refine ⟨fun out hout q hq => ?_, normalizeA32_bounds sr c hc s32 h32⟩
  have h := normalizeA16_bounds sr c hc s16 h16 out hout q hq
  exact ⟨h.1, le_trans h.2 (by norm_num)⟩

/-- Witness for C7: the stereo 16-bit frame `(16384, -32768)` normalizes
to `-1/4`, which the theorem places in `[-1, 1]`. -/
theorem c7_unit_range_witness :
    -1 ≤ (-1 : ℚ) / 4 ∧ (-1 : ℚ) / 4 ≤ 1 := by
  have heq : normalizeAudioA ⟨16000, 2, 16⟩ (.int16 [16384, -32768]) =
      .ok [(-1 : ℚ) / 4] := by
    rw [normalizeA_stereo16_red]
    norm_num [chunksExact2]
  exact (c7_unit_range 16000 2 (Or.inr rfl) [16384, -32768] [1, -1]
    (by norm_num [wellFormed16]) (by norm_num [wellFormed32])).1
    [(-1 : ℚ) / 4] heq ((-1 : ℚ) / 4) (by simp)

/-- Claim C10: for well-formed 16-bit input every normalized sample lies
in the half-open interval `[-1, 1)` — bounded above by `32767/32768 < 1`
— and `-1` is attained by the sample `-32768`. -/
theorem c10_16bit_half_open (sr c : Nat) (hc : c = 1 ∨ c = 2) (s16 : List ℤ)
    (h16 : wellFormed16 s16) :
    (∀ out, normalizeAudioA ⟨sr, c, 16⟩ (.int16 s16) = .ok out →
        ∀ q ∈ out, -1 ≤ q ∧ q < 1)
  ∧ normalizeAudioA ⟨sr, 1, 16⟩ (.int16 [-32768]) = .ok [-1] := by
  constructor
  · intro out hout q hq
    have h := normalizeA16_bounds sr c hc s16 h16 out hout q hq
    exact ⟨h.1, lt_of_le_of_lt h.2 (by norm_num)⟩
  · rw [normalizeA_mono16_red]
    norm_num

/-- Witness for C10: the stereo 16-bit frame `(32767, 32767)` normalizes
to `32767/32768`, which the theorem places in `[-1, 1)`; the attainability
part evaluates on `[-32768]`. -/
theorem c10_16bit_half_open_witness :
    (-1 ≤ (32767 : ℚ) / 32768 ∧ (32767 : ℚ) / 32768 < 1)
  ∧ normalizeAudioA ⟨16000, 1, 16⟩ (.int16 [-32768]) = .ok [-1] := by
  have heq : normalizeAudioA ⟨16000, 2, 16⟩ (.int16 [32767, 32767]) =
      .ok [(32767 : ℚ) / 32768] := by
    rw [normalizeA_stereo16_red]
    norm_num [chunksExact2]
  exact ⟨(c10_16bit_half_open 16000 2 (Or.inr rfl) [32767, 32767]
      (by norm_num [wellFormed16])).1 _ heq _ (by simp),
    (c10_16bit_half_open 16000 2 (Or.inr rfl) [32767, 32767]
      (by norm_num [wellFormed16])).2⟩

/-- Counterexample to claim C1 as stated: in an environment where
`audio.wav` is present and would parse successfully as it stands, the
function still launches the ffmpeg subprocess and rewrites the file —
the final contents differ from the original. -/
theorem c1_counterexample :
    envReadable.parseWav [1, 2, 3] = .ok (⟨16000, 1, 16⟩, .int16 [0])
  ∧ envReadable.fs0 "audio.wav" = some [1, 2, 3]
  ∧ Effect.runFfmpeg "audio.wav" "audio.repaired.tmp.wav"
      ∈ (fixAndOpenWavInplace envReadable "audio.wav").trace
  ∧ (fixAndOpenWavInplace envReadable "audio.wav").fs "audio.wav" = some [4, 5, 6]
  ∧ (fixAndOpenWavInplace envReadable "audio.wav").fs "audio.wav" ≠
      envReadable.fs0 "audio.wav" := by
  refine ⟨rfl, rfl, ?_, ?_, ?_⟩ <;> decide

/-- Claim C1 amended: `fix_and_open_wav_inplace` never attempts an
initial open — its first external action is always the ffmpeg launch, and
any open of the input path happens only after the ffmpeg run and the
rename of the temporary onto the original. -/
theorem c1_always_repairs_before_open (env : Env) (path : String) :
    (fixAndOpenWavInplace env path).trace.head? =
      some (.runFfmpeg path (withExtension path "repaired.tmp.wav"))
  ∧ (Effect.openWav path ∈ (fixAndOpenWavInplace env path).trace →
      (fixAndOpenWavInplace env path).trace =
        [.runFfmpeg path (withExtension path "repaired.tmp.wav"),
         .renameFile (withExtension path "repaired.tmp.wav") path,
         .openWav path]) := by
  unfold fixAndOpenWavInplace
  cases hs : env.ffmpegSpawns
  · simp
  · cases hr : env.ffmpegResult (env.fs0 path) with
    | error stderr => simp
    | ok out =>
      cases hren : env.renameOk
      · simp
      · simp

/-- Witness for the amended C1: in `envReadable` the open does occur, and
the trace is exactly ffmpeg run, then rename, then open. -/
theorem c1_always_repairs_witness :
    (fixAndOpenWavInplace envReadable "audio.wav").trace =
      [.runFfmpeg "audio.wav" "audio.repaired.tmp.wav",
       .renameFile "audio.repaired.tmp.wav" "audio.wav",
       .openWav "audio.wav"] :=
  (c1_always_repairs_before_open envReadable "audio.wav").2 (by decide)

/-- Claim C3: when the ffmpeg subprocess runs and reports failure, the
temporary file is deleted, the original file keeps its exact bytes, and an
error is returned; and a rename of the temporary onto any destination
appears in the trace only when the subprocess reported success. -/
theorem c3_tool_failure_atomicity (env : Env) (path : String)
    (hspawn : env.ffmpegSpawns = true)
    (htemp : withExtension path "repaired.tmp.wav" ≠ path) :
    (∀ stderr, env.ffmpegResult (env.fs0 path) = .error stderr →
        (fixAndOpenWavInplace env path).fs
          (withExtension path "repaired.tmp.wav") = none
      ∧ (fixAndOpenWavInplace env path).fs path = env.fs0 path
      ∧ (∃ msg, (fixAndOpenWavInplace env path).result = .error msg)
      ∧ ∀ dst, Effect.renameFile (withExtension path "repaired.tmp.wav") dst
          ∉ (fixAndOpenWavInplace env path).trace)
  ∧ (∀ dst, Effect.renameFile (withExtension path "repaired.tmp.wav") dst
        ∈ (fixAndOpenWavInplace env path).trace →
      ∃ out, env.ffmpegResult (env.fs0 path) = .ok out) := by
  have hne : path ≠ withExtension path "repaired.tmp.wav" := Ne.symm htemp
  constructor
  · intro stderr hfail
    simp [fixAndOpenWavInplace, hspawn, hfail, fsRemove, hne]
  · intro dst hmem
    cases hr : env.ffmpegResult (env.fs0 path) with
    | ok out => exact ⟨out, rfl⟩
    | error stderr =>
        simp [fixAndOpenWavInplace, hspawn, hr] at hmem

/-- Witness for C3 in the concrete environment where ffmpeg exits
non-zero with stderr `boom`. -/
theorem c3_tool_failure_witness :
    (fixAndOpenWavInplace envToolFails "audio.wav").fs
      "audio.repaired.tmp.wav" = none
  ∧ (fixAndOpenWavInplace envToolFails "audio.wav").fs "audio.wav" =
      envToolFails.fs0 "audio.wav"
  ∧ (∃ msg, (fixAndOpenWavInplace envToolFails "audio.wav").result =
      .error msg) := by
  have h := (c3_tool_failure_atomicity envToolFails "audio.wav" rfl
    (by decide)).1 "boom" rfl
  exact ⟨h.1, h.2.1, h.2.2.1⟩

/-- Claim C6: when ffmpeg succeeds but the rename of the temporary onto
the original fails, the function returns the rename error and performs no
cleanup — the temporary file (holding the remuxed bytes) remains on disk,
the original is unchanged, and no remove of the temporary occurs. -/
theorem c6_rename_failure_leaves_temp (env : Env) (path : String)
    (out : List Nat)
    (hspawn : env.ffmpegSpawns = true)
    (htemp : withExtension path "repaired.tmp.wav" ≠ path)
    (hok : env.ffmpegResult (env.fs0 path) = .ok out)
    (hren : env.renameOk = false) :
    (fixAndOpenWavInplace env path).result = .error "rename failed"
  ∧ (fixAndOpenWavInplace env path).fs
      (withExtension path "repaired.tmp.wav") = some out
  ∧ (fixAndOpenWavInplace env path).fs path = env.fs0 path
  ∧ Effect.removeFile (withExtension path "repaired.tmp.wav")
      ∉ (fixAndOpenWavInplace env path).trace := by
  have hne : path ≠ withExtension path "repaired.tmp.wav" := Ne.symm htemp
  simp [fixAndOpenWavInplace, hspawn, hok, hren, fsWrite, hne]

/-- Witness for C6 in the concrete environment where ffmpeg writes `[8]`
to the temporary file and the rename then fails. -/
theorem c6_rename_failure_witness :
    (fixAndOpenWavInplace envRenameFails "audio.wav").result =
      .error "rename failed"
  ∧ (fixAndOpenWavInplace envRenameFails "audio.wav").fs
      "audio.repaired.tmp.wav" = some [8]
  ∧ (fixAndOpenWavInplace envRenameFails "audio.wav").fs "audio.wav" =
      envRenameFails.fs0 "audio.wav" := by
  have h := c6_rename_failure_leaves_temp envRenameFails "audio.wav" [8]
    rfl (by decide) rfl rfl
  exact ⟨h.1, h.2.1, h.2.2.1⟩
